import Mathlib

/-!
# Verification of the bookie-cpp wire codec and durability journal

Shallow embedding of `src/BookieCodecV2.cpp` and `src/Storage.cpp`.
Machine integers are represented by their bit patterns as `Nat`
(reduced mod `2 ^ w` where the C++ code can overflow), with
`toSigned` giving the two's-complement reading where the code uses a
signed value.  Byte buffers are `List Nat` with every element below 256.
-/

/-! ## Byte-level primitives (folly `io::Cursor` / `io::RWPrivateCursor`) -/

/-- Two's-complement reading of a `w`-bit pattern `n` (`n < 2 ^ w`). -/
def toSigned (w n : Nat) : Int :=
  if n < 2 ^ (w - 1) then (n : Int) else (n : Int) - 2 ^ w

/-- Big-endian byte string (length `w`) of the low `w` bytes of `v`,
as produced by folly `writeBE`. -/
def beBytes : Nat → Nat → List Nat
  | 0, _ => []
  | w + 1, v => beBytes w (v / 256) ++ [v % 256]

/-- Value of a big-endian byte string, as read by folly `readBE`. -/
def beVal : List Nat → Nat
  | [] => 0
  | b :: bs => b * 256 ^ bs.length + beVal bs

/-- `writeBE<int64_t>` of a signed 64-bit value: the 8-byte big-endian
pattern of its two's-complement representation. -/
def writeBE64 (x : Int) : List Nat := beBytes 8 (x % (2 ^ 64)).toNat

/-- `readBE<int64_t>`: the signed value of an 8-byte big-endian pattern. -/
def readBE64 (bs : List Nat) : Int := toSigned 64 (beVal bs)

/-- `writeBE<int32_t>` of a signed 32-bit value. -/
def writeBE32 (x : Int) : List Nat := beBytes 4 (x % (2 ^ 32)).toNat

/-- `readBE<int32_t>`: the signed value of a 4-byte big-endian pattern. -/
def readBE32 (bs : List Nat) : Int := toSigned 32 (beVal bs)

/-! ## Protocol constants

`BookieCodecV2.h` is not among the sources, so the constants it declares
are modelled from the spec. -/

/-- Modelled from the spec: `BookieConstant::MasterKeyLength`, declared in
the missing `BookieCodecV2.h`. The spec fixes it only as "fixed length
constant"; the concrete value 20 is chosen for evaluation, and every theorem
below uses it only as an opaque fixed length. -/
def MasterKeyLength : Nat := 20

/-- Modelled from the spec: numeric value of `BookieOperation::AddEntry`
from the closed enumeration in the missing `BookieCodecV2.h`; the three
codes are modelled as distinct 8-bit values. -/
def addEntryCode : Nat := 1

/-- Modelled from the spec: numeric value of `BookieOperation::ReadEntry`. -/
def readEntryCode : Nat := 2

/-- Modelled from the spec: numeric value of `BookieOperation::Auth`. -/
def authCode : Nat := 3

/-! ## PacketHeader (`src/BookieCodecV2.cpp`, lines 27–43)

The C++ struct holds `int8_t version; BookieOperation opCode; int16_t flags`.
The `opCode` field is modelled by the underlying numeric value of the
`BookieOperation` enumeration. -/

structure PacketHeader where
  version : Int
  opCode : Nat
  flags : Int
deriving DecidableEq, Repr

/-- `PacketHeader::fromInt`: `version = value >> 24` (truncated to
`int8_t`), `opCode = (value >> 16) & 0xFF`, `flags = value & 0xFF`.
`value` is the bit pattern of the C++ `int` argument. -/
def PacketHeader.fromInt (value : Nat) : PacketHeader :=
  { version := toSigned 8 (value / 2 ^ 24 % 256)
    opCode := value / 2 ^ 16 % 256
    flags := ((value % 256 : Nat) : Int) }

/-- `PacketHeader::toInt`:
`((version & 0xFF) << 24) | (((int8_t) opCode & 0xFF) << 16) | ((int16_t) flags & 0xFFFF)`,
as the bit pattern of the returned C++ `int` (the three fields occupy
disjoint bit ranges, so the bitwise-or is a sum). -/
def PacketHeader.toInt (h : PacketHeader) : Nat :=
  (h.version % 256).toNat * 2 ^ 24 + h.opCode % 256 * 2 ^ 16
    + (h.flags % 65536).toNat

/-! ## Request / Response -/

/-- The typed `Request` of `BookieCodecV2.h` (fields as used by
`src/BookieCodecV2.cpp`): `protocolVersion`, `opCode` (underlying
enumeration value), `flags`, `ledgerId`/`entryId` (`int64_t`), and `data`
(an `IOBufPtr`; `none` models a null pointer). -/
structure Request where
  protocolVersion : Int := 0
  opCode : Nat := 0
  flags : Int := 0
  ledgerId : Int := 0
  entryId : Int := 0
  data : Option (List Nat) := none
deriving DecidableEq, Repr

/-- Modelled from the spec: `Request::isFencing()` is declared in the
missing `BookieCodecV2.h`; per the spec the low bit of `flags`
conventionally signals fencing. -/
def Request.isFencing (r : Request) : Bool := r.flags % 2 = 1

/-- The typed `Response` of `BookieCodecV2.h` (fields as used by
`src/BookieCodecV2.cpp`): `protocolVersion`, `opCode`, `errorCode`
(underlying value of the `BookieError` enumeration, carried as `int32_t`
on the wire), `ledgerId`/`entryId`, and optional `data`. -/
structure Response where
  protocolVersion : Int := 0
  opCode : Nat := 0
  errorCode : Int := 0
  ledgerId : Int := 0
  entryId : Int := 0
  data : Option (List Nat) := none
deriving DecidableEq, Repr

/-- Observable outcome of a codec `read` call: no call on the context
(`noop`, null buffer), `ctx->fireClose()` (`close`), or
`ctx->fireRead(v)` (`deliver v`). -/
inductive DecodeAction (α : Type) where
  | noop : DecodeAction α
  | close : DecodeAction α
  | deliver : α → DecodeAction α
deriving DecidableEq, Repr

/-! ## Server codec (`src/BookieCodecV2.cpp`, lines 45–145) -/

/-- Body of `BookieServerCodecV2::read` after the 4-byte header has been
consumed: `hdr` is the decoded `PacketHeader`, `rest` the remaining
bytes (`reader.totalLength()` after the header read). The switch on the
opcode decodes the payload; an opcode matching no case (including
`Auth`) falls through to `fireRead` with only the header fields set. -/
def serverReadBody (hdr : PacketHeader) (rest : List Nat) : DecodeAction Request :=
  let req : Request :=
    { protocolVersion := hdr.version, opCode := hdr.opCode, flags := hdr.flags }
  if req.opCode = addEntryCode then
    if rest.length < MasterKeyLength + 16 then .close
    else
      let afterKey := rest.drop MasterKeyLength
      .deliver { req with
        ledgerId := readBE64 (afterKey.take 8)
        entryId := readBE64 ((afterKey.drop 8).take 8)
        data := some (afterKey.drop 16) }
  else if req.opCode = readEntryCode then
    if rest.length < 16 + (if req.isFencing then MasterKeyLength else 0) then .close
    else
      .deliver { req with
        ledgerId := readBE64 (rest.take 8)
        entryId := readBE64 ((rest.drop 8).take 8) }
  else .deliver req

/-- `BookieServerCodecV2::read`. The buffer is `none` for a null
`IOBufPtr`; a non-null buffer shorter than 4 bytes is a short request
(`fireClose`); otherwise the leading 4 bytes are unpacked with
`PacketHeader::fromInt` and the opcode switch (`serverReadBody`) runs
on the remainder. -/
def BookieServerCodecV2.read (buf : Option (List Nat)) : DecodeAction Request :=
  match buf with
  | none => .noop
  | some bytes =>
    if bytes.length < 4 then .close
    else serverReadBody (PacketHeader.fromInt (beVal (bytes.take 4))) (bytes.drop 4)

/-- Result of a codec `write` call. `buffer` is the full `IOBuf` content
handed to `ctx->fireWrite` (bytes never touched by the cursor keep the
uninitialized allocation content, passed in as `junk`); `written` is how
far the write cursor advanced past the 4-byte length field (explicit
writes plus `skip`ped reserved fields); `fsVal` is the frame-size value
written into the leading length field. -/
structure WireOut where
  buffer : List Nat
  written : Nat
  fsVal : Nat
deriving DecidableEq, Repr

/-- `BookieServerCodecV2::write`. `headerSize = 4 + 24`,
`frameSize = headerSize`, `bufferSize = frameSize + 4`; the whole
`bufferSize` is appended up front, so bytes past the cursor are
transmitted with their uninitialized content (`junk`, of length
`bufferSize` minus the bytes the cursor wrote: 4 for the
`AddEntry`/`ReadEntry` branches, 24 for the `Auth`/default branch).
The `ReadEntry` branch's `if (response.data)` block is empty in the
source, so both non-`Auth` branches write the same fields. -/
def BookieServerCodecV2.write (junk : List Nat) (resp : Response) : WireOut :=
  let frameSize := 4 + 24
  let pkt : PacketHeader := ⟨resp.protocolVersion, resp.opCode, 0⟩
  let front := beBytes 4 frameSize ++ beBytes 4 pkt.toInt
  if resp.opCode = addEntryCode ∨ resp.opCode = readEntryCode then
    { buffer := front ++ writeBE32 resp.errorCode
        ++ writeBE64 resp.ledgerId ++ writeBE64 resp.entryId ++ junk
      written := 4 + 4 + 8 + 8
      fsVal := frameSize }
  else
    { buffer := front ++ junk
      written := 4
      fsVal := frameSize }

/-! ## Client codec (`src/BookieCodecV2.cpp`, lines 147–223) -/

/-- `BookieClientCodecV2::read`. The outer `Option` models the
exception thrown by the folly cursor when the unchecked `readBE` calls
of the `AddEntry`/`ReadEntry` branches run past the end of the buffer
(the response decoder validates no lengths beyond the initial 4-byte
check); `some a` means the call returned normally with observable
outcome `a`. -/
def BookieClientCodecV2.read (buf : Option (List Nat)) :
    Option (DecodeAction Response) :=
  match buf with
  | none => some .noop
  | some bytes =>
    if bytes.length < 4 then some .close
    else
      let hdr := PacketHeader.fromInt (beVal (bytes.take 4))
      let rest := bytes.drop 4
      let resp : Response := { protocolVersion := hdr.version, opCode := hdr.opCode }
      if resp.opCode = addEntryCode ∨ resp.opCode = readEntryCode then
        if rest.length < 4 + 8 + 8 then none
        else some (.deliver { resp with
          errorCode := readBE32 (rest.take 4)
          ledgerId := readBE64 ((rest.drop 4).take 8)
          entryId := readBE64 ((rest.drop 12).take 8) })
      else some (.deliver resp)

/-- `BookieClientCodecV2::write`. The frame size is computed as
`headerSize + request.data->length()` before the switch on the opcode;
a null `data` (`none`) makes the call undefined (null dereference),
modelled as `none`. `headerSize = 4 + MasterKeyLength + 16` and
`bufferSize = headerSize + 4`. In the `AddEntry` branch the cursor skips
the master-key field (its `junk` content stays, length
`MasterKeyLength`), writes `ledgerId`/`entryId` and splices the payload
buffer onto the chain; in the `ReadEntry`/`Auth` branches nothing past
the packed header is written, so the trailing `MasterKeyLength + 16`
bytes of the allocation (`junk`) are transmitted uninitialized. -/
def BookieClientCodecV2.write (junk : List Nat) (req : Request) :
    Option WireOut :=
  match req.data with
  | none => none
  | some payload =>
    let headerSize := 4 + MasterKeyLength + 16
    let frameSize := headerSize + payload.length
    let pkt : PacketHeader := ⟨req.protocolVersion, req.opCode, req.flags⟩
    let front := beBytes 4 frameSize ++ beBytes 4 pkt.toInt
    if req.opCode = addEntryCode then
      some { buffer := front ++ junk
               ++ writeBE64 req.ledgerId ++ writeBE64 req.entryId ++ payload
             written := 4 + MasterKeyLength + 8 + 8 + payload.length
             fsVal := frameSize }
    else
      some { buffer := front ++ junk
             written := 4
             fsVal := frameSize }

/-! ## Durability journal (`src/Storage.cpp`, lines 108–141)

A queue item is `some h` for a completion handle (identified by a `Nat`)
or `none` for the shutdown sentinel (null `PromisePtr`). One iteration of
the outer `while (true)` loop starts with an empty `entriesToSync`
vector (it is cleared at the end of every syncing iteration and never
filled across a `continue`). -/

/-- Observable events of the journal worker: `db_->SyncWAL()` and
`pr->setValue(unit)` on a completion handle. -/
inductive JEvent where
  | sync : JEvent
  | resolve : Nat → JEvent
deriving DecidableEq, Repr

/-- The inner `while (journalQueue_.read(promise))` drain loop: collect
handles in arrival order until the queue is empty or the sentinel is
read. Returns the collected batch and whether the sentinel was hit
(queue items behind the sentinel are never read). -/
def drainQueue : List (Option Nat) → List Nat × Bool
  | [] => ([], false)
  | none :: _ => ([], true)
  | some h :: rest =>
    let (hs, s) := drainQueue rest
    (h :: hs, s)

/-- One iteration of `Storage::runJournal`'s outer loop, applied to the
queue items available in this cycle: returns the emitted events in
order and whether the worker returned (terminated). On the sentinel the
function returns at once — no `SyncWAL`, no `setValue`, the batch
vector is simply destroyed. With no sentinel: an empty batch is a
`continue`; otherwise one `SyncWAL` followed by `setValue` on every
batched handle in order. -/
def runJournalCycle (items : List (Option Nat)) : List JEvent × Bool :=
  let (batch, sentinel) := drainQueue items
  if sentinel then ([], true)
  else if batch.isEmpty then ([], false)
  else (JEvent.sync :: batch.map JEvent.resolve, false)

/-- `Storage::runJournal` over a schedule of cycles (the list of queue
items drained by each successive iteration): concatenates cycle events
until a cycle terminates the worker. -/
def runJournal : List (List (Option Nat)) → List JEvent
  | [] => []
  | items :: rest =>
    let (evs, stopped) := runJournalCycle items
    if stopped then evs else evs ++ runJournal rest

/-! ## Storage façade (`src/Storage.cpp`, lines 29–106) -/

/-- Observable events of `Storage::Storage` and `Storage::put`:
starting the journal thread, the engine-level `db_->Put`, and enqueuing
a completion handle onto `journalQueue_`. -/
inductive SEvent where
  | startJournalThread : SEvent
  | enginePut : SEvent
  | enqueueHandle : SEvent
deriving DecidableEq, Repr

/-- What `Storage::put` hands back to the caller: an already-resolved
success future (`makeFuture(Unit())`), a pending future tied to an
enqueued promise, or a failed future (`std::runtime_error`). -/
inductive PutResult where
  | resolvedSuccess : PutResult
  | pendingHandle : PutResult
  | failed : PutResult
deriving DecidableEq, Repr

/-- The journal-relevant effect of `Storage::Storage(conf)`: the journal
thread is spawned iff `conf.fsyncWal()` (database-open events are out of
scope). -/
def Storage.construct (fsyncWal : Bool) : List SEvent :=
  if fsyncWal then [.startJournalThread] else []

/-- `Storage::put`: always one engine `Put`; on success either enqueue a
fresh promise and return its future (`fsyncWal_` true) or return an
already-resolved success future; on engine failure return a failed
future. `engineOk` is the `res.ok()` outcome of the engine `Put`. -/
def Storage.put (fsyncWal engineOk : Bool) : List SEvent × PutResult :=
  if engineOk then
    if fsyncWal then ([.enginePut, .enqueueHandle], .pendingHandle)
    else ([.enginePut], .resolvedSuccess)
  else ([.enginePut], .failed)

/-! ## Helper lemmas -/

theorem length_beBytes (w v : Nat) : (beBytes w v).length = w := by
  induction w generalizing v with
  | zero => rfl
  | succ w ih => simp [beBytes, ih]

theorem beVal_append (l₁ l₂ : List Nat) :
    beVal (l₁ ++ l₂) = beVal l₁ * 256 ^ l₂.length + beVal l₂ := by
  induction l₁ with
  | nil => simp [beVal]
  | cons b bs ih =>
    simp [beVal, ih, List.length_append, pow_add]
    ring

theorem beVal_beBytes (w v : Nat) : beVal (beBytes w v) = v % 256 ^ w := by
  induction w generalizing v with
  | zero => simp [beBytes, beVal, Nat.mod_one]
  | succ w ih =>
    rw [beBytes, beVal_append, ih]
    simp only [beVal, List.length_singleton, pow_one, pow_zero, mul_one, List.length_nil]
    calc v / 256 % 256 ^ w * 256 + v % 256
        = v % 256 + 256 * (v / 256 % 256 ^ w) := by ring
      _ = v % (256 * 256 ^ w) := (Nat.mod_mul).symm
      _ = v % 256 ^ (w + 1) := by rw [pow_succ]; ring_nf

theorem beVal_beBytes_of_lt {w v : Nat} (h : v < 256 ^ w) :
    beVal (beBytes w v) = v := by
  rw [beVal_beBytes, Nat.mod_eq_of_lt h]

theorem length_writeBE64 (x : Int) : (writeBE64 x).length = 8 :=
  length_beBytes 8 _

theorem readBE64_writeBE64 {x : Int} (h₁ : -(2 ^ 63) ≤ x) (h₂ : x < 2 ^ 63) :
    readBE64 (writeBE64 x) = x := by
  have hge : 0 ≤ x % (2 ^ 64 : Int) := Int.emod_nonneg x (by norm_num)
  have hlt : x % (2 ^ 64 : Int) < 2 ^ 64 := Int.emod_lt_of_pos x (by norm_num)
  have hb : (x % (2 ^ 64 : Int)).toNat < 256 ^ 8 := by
    have h256 : (256 : Nat) ^ 8 = 2 ^ 64 := by norm_num
    rw [h256]
    omega
  rw [readBE64, writeBE64, beVal_beBytes_of_lt hb]
  unfold toSigned
  split <;> omega

theorem toInt_lt (h : PacketHeader) : h.toInt < 2 ^ 32 := by
  unfold PacketHeader.toInt
  omega

theorem fromInt_toInt_opCode (h : PacketHeader) :
    (PacketHeader.fromInt h.toInt).opCode = h.opCode % 256 := by
  simp only [PacketHeader.fromInt, PacketHeader.toInt]
  omega

theorem fromInt_toInt_version (h : PacketHeader)
    (h₁ : -128 ≤ h.version) (h₂ : h.version < 128) :
    (PacketHeader.fromInt h.toInt).version = h.version := by
  simp only [PacketHeader.fromInt, PacketHeader.toInt, toSigned]
  split <;> omega

theorem fromInt_toInt_flags (h : PacketHeader) :
    (PacketHeader.fromInt h.toInt).flags = (h.flags % 65536).toNat % 256 := by
  simp only [PacketHeader.fromInt, PacketHeader.toInt]
  omega

theorem take_append_of_length {α : Type} {l₁ l₂ : List α} {n : Nat}
    (h : l₁.length = n) : (l₁ ++ l₂).take n = l₁ := by
  subst h
  simp

theorem drop_append_of_length {α : Type} {l₁ l₂ : List α} {n : Nat}
    (h : l₁.length = n) : (l₁ ++ l₂).drop n = l₂ := by
  subst h
  simp

theorem fromInt_toInt_mk (v f : Int) (c : Nat) (hc : c < 256) :
    PacketHeader.fromInt (PacketHeader.toInt ⟨v, c, f⟩) =
      ⟨toSigned 8 (v % 256).toNat, c, ((f % 65536).toNat % 256 : Nat)⟩ := by
  simp only [PacketHeader.fromInt, PacketHeader.toInt, PacketHeader.mk.injEq]
  refine ⟨?_, by omega, by omega⟩
  congr 1
  omega

theorem serverRead_append (h : PacketHeader) (rest : List Nat) :
    BookieServerCodecV2.read (some (beBytes 4 h.toInt ++ rest))
      = serverReadBody (PacketHeader.fromInt h.toInt) rest := by
  have hv : beVal ((beBytes 4 h.toInt ++ rest).take 4) = h.toInt := by
    rw [take_append_of_length (length_beBytes 4 _),
      beVal_beBytes_of_lt (lt_of_lt_of_le (toInt_lt h) (by norm_num))]
  simp only [BookieServerCodecV2.read]
  rw [if_neg (by simp only [List.length_append, length_beBytes]; omega),
    hv, drop_append_of_length (length_beBytes 4 _)]

theorem drop16_append {l₁ l₂ l₃ : List Nat} (h₁ : l₁.length = 8)
    (h₂ : l₂.length = 8) : (l₁ ++ (l₂ ++ l₃)).drop 16 = l₃ := by
  rw [show (16:Nat) = l₁.length + l₂.length by omega, ← List.append_assoc]
  exact drop_append_of_length (by simp)

/-! ## Claim theorems -/

/-- C1, counterexample: the valid header (version 0, opCode `AddEntry`,
flags 256 — a legal 16-bit flags value) does not round-trip. `toInt`
packs 16 bits of flags but `fromInt` recovers only `value & 0xFF`, so
the recovered flags are 0. -/
theorem packetHeader_roundtrip_counterexample :
    PacketHeader.fromInt (PacketHeader.toInt ⟨0, addEntryCode, 256⟩)
        = ⟨0, addEntryCode, 0⟩ ∧
    PacketHeader.fromInt (PacketHeader.toInt ⟨0, addEntryCode, 256⟩)
        ≠ ⟨0, addEntryCode, 256⟩ := by
  decide

/-- C1, amended: `fromInt (toInt h) = h` for every valid header whose
flags value fits in the low byte (`0 ≤ flags < 256`); both functions are
total (no error path). For flags with any of bits 8–15 set, the
round-trip truncates flags to its low byte, because `fromInt` reads the
flags field with mask `0xFF` while `toInt` packs 16 flag bits. -/
theorem packetHeader_roundtrip_low_flags (h : PacketHeader)
    (hv₁ : -128 ≤ h.version) (hv₂ : h.version < 128)
    (hop : h.opCode < 256)
    (hf₁ : 0 ≤ h.flags) (hf₂ : h.flags < 256) :
    PacketHeader.fromInt h.toInt = h := by
  obtain ⟨v, op, f⟩ := h
  simp only [PacketHeader.fromInt, PacketHeader.toInt, toSigned,
    PacketHeader.mk.injEq] at *
  refine ⟨?_, ?_, ?_⟩
  · split <;> omega
  · omega
  · omega

/-- C1, witness for the amended round-trip at a concrete valid header. -/
theorem packetHeader_roundtrip_low_flags_witness :
    PacketHeader.fromInt (PacketHeader.toInt ⟨5, readEntryCode, 129⟩)
      = ⟨5, readEntryCode, 129⟩ :=
  packetHeader_roundtrip_low_flags ⟨5, readEntryCode, 129⟩
    (by decide) (by decide) (by decide) (by decide) (by decide)

/-- C7, counterexample: a non-null empty buffer is not a no-op — both
decoders signal close-connection on it (the 4-byte minimum check
fires); only a null buffer is a no-op. -/
theorem decode_empty_buffer_closes :
    BookieServerCodecV2.read (some []) = DecodeAction.close ∧
    BookieClientCodecV2.read (some []) = some DecodeAction.close := by
  constructor <;> rfl

/-- C7, amended: a null buffer is a no-op for both decoders; every
non-null buffer shorter than 4 bytes — including the empty buffer —
makes both the server-side Request decoder and the client-side Response
decoder signal close-connection, and neither ever delivers a parsed
value for it. -/
theorem decode_short_buffer (bytes : List Nat) (h : bytes.length < 4) :
    BookieServerCodecV2.read none = DecodeAction.noop ∧
    BookieClientCodecV2.read none = some DecodeAction.noop ∧
    BookieServerCodecV2.read (some bytes) = DecodeAction.close ∧
    BookieClientCodecV2.read (some bytes) = some DecodeAction.close := by
  refine ⟨rfl, rfl, ?_, ?_⟩
  · simp [BookieServerCodecV2.read, h]
  · simp [BookieClientCodecV2.read, h]

/-- C7, witness: the short-buffer behaviour at the concrete 3-byte
buffer `[7, 7, 7]`. -/
theorem decode_short_buffer_witness :
    [(7:Nat), 7, 7].length < 4 ∧
    (BookieServerCodecV2.read none = DecodeAction.noop ∧
     BookieClientCodecV2.read none = some DecodeAction.noop ∧
     BookieServerCodecV2.read (some [7, 7, 7]) = DecodeAction.close ∧
     BookieClientCodecV2.read (some [7, 7, 7]) = some DecodeAction.close) :=
  ⟨by decide, decode_short_buffer [7, 7, 7] (by decide)⟩

/-- C8: for every request frame whose payload after the 4-byte header is
below the opcode minimum — `AddEntry`: fewer than `MasterKeyLength + 16`
bytes; `ReadEntry`: fewer than `16 + (MasterKeyLength if the fencing
flag is set, else 0)` bytes — the server-side decoder signals
close-connection and delivers no parsed Request. -/
theorem serverRead_short_payload_closes (v f : Int) (rest : List Nat) :
    (rest.length < MasterKeyLength + 16 →
      BookieServerCodecV2.read
        (some (beBytes 4 (PacketHeader.toInt ⟨v, addEntryCode, f⟩) ++ rest))
        = DecodeAction.close) ∧
    (rest.length < 16 + (if f % 2 = 1 then MasterKeyLength else 0) →
      BookieServerCodecV2.read
        (some (beBytes 4 (PacketHeader.toInt ⟨v, readEntryCode, f⟩) ++ rest))
        = DecodeAction.close) := by
  constructor
  · intro hlen
    rw [serverRead_append, fromInt_toInt_mk v f addEntryCode (by decide)]
    simp only [serverReadBody]
    rw [if_pos trivial, if_pos hlen]
  · intro hlen
    rw [serverRead_append, fromInt_toInt_mk v f readEntryCode (by decide)]
    simp only [serverReadBody, Request.isFencing]
    have hcond : (if decide ((((f % 65536).toNat % 256 : Nat) : Int) % 2 = 1) = true
        then MasterKeyLength else 0) = (if f % 2 = 1 then MasterKeyLength else 0) := by
      by_cases hf : f % 2 = 1
      · rw [if_pos (by simp only [decide_eq_true_eq]; omega), if_pos hf]
      · rw [if_neg (by simp only [decide_eq_true_eq]; omega), if_neg hf]
    rw [if_pos trivial, hcond, if_pos hlen, if_neg (by decide)]

/-- C8, witness: both short-payload branches at concrete inputs
(version 0, flags 1 — fencing set — and a 10-byte payload). -/
theorem serverRead_short_payload_closes_witness :
    ((List.replicate 10 (0:Nat)).length < MasterKeyLength + 16 ∧
     BookieServerCodecV2.read
       (some (beBytes 4 (PacketHeader.toInt ⟨0, addEntryCode, 1⟩)
         ++ List.replicate 10 0)) = DecodeAction.close) ∧
    ((List.replicate 10 (0:Nat)).length
        < 16 + (if (1:Int) % 2 = 1 then MasterKeyLength else 0) ∧
     BookieServerCodecV2.read
       (some (beBytes 4 (PacketHeader.toInt ⟨0, readEntryCode, 1⟩)
         ++ List.replicate 10 0)) = DecodeAction.close) :=
  ⟨⟨by decide, (serverRead_short_payload_closes 0 1 (List.replicate 10 0)).1 (by decide)⟩,
   ⟨by decide, (serverRead_short_payload_closes 0 1 (List.replicate 10 0)).2 (by decide)⟩⟩

/-- C4: for every AddEntry request with ledgerId `L`, entryId `E` and
payload `P` (both ids in `int64_t` range, payload buffer non-null),
decoding the frame emitted by the client-side encoder — after the
transport strips the leading 4-byte length field — yields a Request
with ledgerId = `L`, entryId = `E` and data byte-identical to `P`.
`junk` is the uninitialized content of the reserved master-key region
of the encoder's buffer; the round trip holds whatever those bytes
are. -/
theorem addEntry_encode_decode (junk P : List Nat) (r : Request)
    (hjunk : junk.length = MasterKeyLength)
    (hop : r.opCode = addEntryCode)
    (hdata : r.data = some P)
    (hl₁ : -(2 ^ 63) ≤ r.ledgerId) (hl₂ : r.ledgerId < 2 ^ 63)
    (he₁ : -(2 ^ 63) ≤ r.entryId) (he₂ : r.entryId < 2 ^ 63) :
    ∃ out req,
      BookieClientCodecV2.write junk r = some out ∧
      BookieServerCodecV2.read (some (out.buffer.drop 4))
        = DecodeAction.deliver req ∧
      req.ledgerId = r.ledgerId ∧ req.entryId = r.entryId ∧
      req.data = some P := by
  have h8L := length_writeBE64 r.ledgerId
  have h8E := length_writeBE64 r.entryId
  simp only [BookieClientCodecV2.write, hdata, hop, ↓reduceIte]
  refine ⟨_,
    { protocolVersion := toSigned 8 (r.protocolVersion % 256).toNat
      opCode := addEntryCode
      flags := (((r.flags % 65536).toNat % 256 : Nat) : Int)
      ledgerId := r.ledgerId, entryId := r.entryId, data := some P },
    rfl, ?_, rfl, rfl, rfl⟩
  simp only [List.append_assoc]
  rw [drop_append_of_length (length_beBytes 4 _),
    serverRead_append ⟨r.protocolVersion, addEntryCode, r.flags⟩,
    fromInt_toInt_mk r.protocolVersion r.flags addEntryCode (by decide)]
  simp only [serverReadBody]
  rw [if_pos trivial,
    if_neg (by simp only [List.length_append, hjunk, length_writeBE64]; omega),
    drop_append_of_length hjunk, take_append_of_length h8L,
    drop_append_of_length h8L, take_append_of_length h8E,
    drop16_append h8L h8E,
    readBE64_writeBE64 hl₁ hl₂, readBE64_writeBE64 he₁ he₂]

/-- C4, witness: the round trip at a concrete AddEntry request
(ledgerId 7, entryId 9, payload `[1, 2, 3]`, master-key region filled
with byte 9). -/
theorem addEntry_encode_decode_witness :
    (List.replicate 20 (9:Nat)).length = MasterKeyLength ∧
    ∃ out req,
      BookieClientCodecV2.write (List.replicate 20 9)
          { protocolVersion := 1, opCode := addEntryCode, flags := 0,
            ledgerId := 7, entryId := 9, data := some [1, 2, 3] } = some out ∧
      BookieServerCodecV2.read (some (out.buffer.drop 4))
        = DecodeAction.deliver req ∧
      req.ledgerId = 7 ∧ req.entryId = 9 ∧ req.data = some [1, 2, 3] :=
  ⟨by decide,
   addEntry_encode_decode (List.replicate 20 9) [1, 2, 3]
     { protocolVersion := 1, opCode := addEntryCode, flags := 0,
       ledgerId := 7, entryId := 9, data := some [1, 2, 3] }
     (by decide) rfl rfl (by decide) (by decide) (by decide) (by decide)⟩

/-- C10: the client-side encoder computes the frame size by
dereferencing `request.data->length()` before the switch on the opcode,
so encoding is well-defined only when `data` is non-null: with
`data = none` the dereference is reached for every opcode and the call
is undefined (first conjunct). For the `ReadEntry`/`Auth` stub branches
with non-null data, the written frameSize counts
`MasterKeyLength + 16 + data.length` bytes although the cursor writes
nothing past the 4-byte packed header (second conjunct). -/
theorem clientWrite_data_deref (junk P : List Nat) (r : Request) :
    (r.data = none → BookieClientCodecV2.write junk r = none) ∧
    (r.data = some P → (r.opCode = readEntryCode ∨ r.opCode = authCode) →
      ∃ out, BookieClientCodecV2.write junk r = some out ∧
        out.fsVal = 4 + MasterKeyLength + 16 + P.length ∧
        out.written = 4) := by
  constructor
  · intro h
    simp [BookieClientCodecV2.write, h]
  · intro h hop
    have hne : ¬ (r.opCode = addEntryCode) := by
      rcases hop with h1 | h1 <;> rw [h1] <;> decide
    simp only [BookieClientCodecV2.write, h, if_neg hne]
    exact ⟨_, rfl, rfl, rfl⟩

/-- C10, witness: a null-data ReadEntry request is undefined to encode;
a ReadEntry request with payload `[5]` gets frameSize
`4 + MasterKeyLength + 16 + 1` with only 4 bytes written after the
length field. -/
theorem clientWrite_data_deref_witness :
    (BookieClientCodecV2.write (List.replicate 36 0)
        { opCode := readEntryCode, data := none } = none) ∧
    (∃ out, BookieClientCodecV2.write (List.replicate 36 0)
        { opCode := readEntryCode, data := some [5] } = some out ∧
      out.fsVal = 4 + MasterKeyLength + 16 + [(5:Nat)].length ∧
      out.written = 4) :=
  ⟨(clientWrite_data_deref (List.replicate 36 0) [5]
      { opCode := readEntryCode, data := none }).1 rfl,
   (clientWrite_data_deref (List.replicate 36 0) [5]
      { opCode := readEntryCode, data := some [5] }).2 rfl (Or.inl rfl)⟩

/-- C5, counterexample: the server encoder emits frameSize 28 for an
AddEntry response, but the packed header plus the opcode fields it
writes after the length field total only 24 bytes (the remaining 4
bytes of the allocation are transmitted uninitialized). -/
theorem frameSize_counterexample :
    beVal ((BookieServerCodecV2.write [0, 0, 0, 0]
        { protocolVersion := 1, opCode := addEntryCode, errorCode := 0,
          ledgerId := 7, entryId := 9 }).buffer.take 4) = 28 ∧
    (BookieServerCodecV2.write [0, 0, 0, 0]
        { protocolVersion := 1, opCode := addEntryCode, errorCode := 0,
          ledgerId := 7, entryId := 9 }).written = 24 ∧
    (28 : Nat) ≠ 24 := by
  decide

theorem length_writeBE32 (x : Int) : (writeBE32 x).length = 4 :=
  length_beBytes 4 _

/-- C5, amended: the emitted frameSize equals the bytes the encoder
actually wrote after the length field only on the client AddEntry path
(`4 + MasterKeyLength + 16 +` payload length, which is also the length
of the emitted buffer after the length field). Server responses always
declare frameSize 28 while the cursor writes only 24 bytes after the
length field in the `AddEntry`/`ReadEntry` branches and 4 in the
`Auth`/default branch; the transmitted buffer still carries exactly 28
bytes after the length field, the unwritten tail being uninitialized
allocation content. -/
theorem frameSize_vs_written (junkS junkC P : List Nat) (resp : Response) (r : Request) :
    ((BookieServerCodecV2.write junkS resp).fsVal = 28 ∧
     ((resp.opCode = addEntryCode ∨ resp.opCode = readEntryCode) →
        junkS.length = 4 →
        (BookieServerCodecV2.write junkS resp).written = 24 ∧
        ((BookieServerCodecV2.write junkS resp).buffer.drop 4).length = 28) ∧
     (¬(resp.opCode = addEntryCode ∨ resp.opCode = readEntryCode) →
        junkS.length = 24 →
        (BookieServerCodecV2.write junkS resp).written = 4 ∧
        ((BookieServerCodecV2.write junkS resp).buffer.drop 4).length = 28)) ∧
    (r.data = some P → junkC.length = MasterKeyLength →
      r.opCode = addEntryCode →
      ∃ out, BookieClientCodecV2.write junkC r = some out ∧
        out.fsVal = out.written ∧
        out.written = 4 + MasterKeyLength + 16 + P.length ∧
        (out.buffer.drop 4).length = out.fsVal) := by
  refine ⟨⟨?_, ?_, ?_⟩, ?_⟩
  · by_cases hc : resp.opCode = addEntryCode ∨ resp.opCode = readEntryCode
    · simp [BookieServerCodecV2.write, hc]
    · simp [BookieServerCodecV2.write, hc]
  · intro hc hj
    simp only [BookieServerCodecV2.write, if_pos hc]
    refine ⟨?_, ?_⟩ <;>
      simp [List.length_drop, List.length_append, length_beBytes,
        length_writeBE64, length_writeBE32, hj]
  · intro hc hj
    simp only [BookieServerCodecV2.write, if_neg hc]
    refine ⟨?_, ?_⟩ <;>
      simp [List.length_drop, List.length_append, length_beBytes, hj]
  · intro hd hj hop
    simp only [BookieClientCodecV2.write, hd, hop, ↓reduceIte]
    refine ⟨_, rfl, ?_, ?_, ?_⟩ <;>
      (simp only [List.length_drop, List.length_append, length_beBytes,
          length_writeBE64, hj]
       try omega)

/-- C5, witness: the frame-size accounting at concrete inputs — a
server AddEntry response and a client AddEntry request with payload
`[1, 2, 3]`. -/
theorem frameSize_vs_written_witness :
    ((BookieServerCodecV2.write [9, 9, 9, 9] { opCode := addEntryCode }).fsVal = 28 ∧
     ((BookieServerCodecV2.write [9, 9, 9, 9] { opCode := addEntryCode }).written = 24 ∧
      ((BookieServerCodecV2.write [9, 9, 9, 9]
          { opCode := addEntryCode }).buffer.drop 4).length = 28)) ∧
    (∃ out, BookieClientCodecV2.write (List.replicate 20 0)
        { opCode := addEntryCode, data := some [1, 2, 3] } = some out ∧
      out.fsVal = out.written ∧
      out.written = 4 + MasterKeyLength + 16 + [(1:Nat), 2, 3].length ∧
      (out.buffer.drop 4).length = out.fsVal) :=
  ⟨⟨(frameSize_vs_written [9, 9, 9, 9] (List.replicate 20 0) [1, 2, 3]
        { opCode := addEntryCode }
        { opCode := addEntryCode, data := some [1, 2, 3] }).1.1,
    (frameSize_vs_written [9, 9, 9, 9] (List.replicate 20 0) [1, 2, 3]
        { opCode := addEntryCode }
        { opCode := addEntryCode, data := some [1, 2, 3] }).1.2.1
      (Or.inl rfl) (by decide)⟩,
   (frameSize_vs_written [9, 9, 9, 9] (List.replicate 20 0) [1, 2, 3]
        { opCode := addEntryCode }
        { opCode := addEntryCode, data := some [1, 2, 3] }).2
      rfl (by decide) rfl⟩

theorem drainQueue_sentinel (items : List (Option Nat)) (h : none ∈ items) :
    (drainQueue items).2 = true := by
  induction items with
  | nil => simp at h
  | cons x rest ih =>
    cases x with
    | none => rfl
    | some a =>
      have hmem : none ∈ rest := by simpa using h
      simp [drainQueue, ih hmem]

theorem drainQueue_no_sentinel (items : List (Option Nat)) (h : ¬ none ∈ items) :
    drainQueue items = (items.filterMap id, false) := by
  induction items with
  | nil => rfl
  | cons x rest ih =>
    cases x with
    | none => exact absurd (by simp) h
    | some a =>
      have hmem : ¬ none ∈ rest := fun hm => h (by simp [hm])
      simp [drainQueue, ih hmem]

/-- C6: when the journal worker drains the sentinel (null handle), it
exits the loop immediately: the cycle emits no `SyncWAL`, resolves no
handle of the partially accumulated batch, and the worker stops
(`runJournalCycle` returns no events and the stopped flag). -/
theorem journal_sentinel_exits (items : List (Option Nat)) (h : none ∈ items) :
    runJournalCycle items = ([], true) := by
  have h2 := drainQueue_sentinel items h
  rcases hd : drainQueue items with ⟨batch, s⟩
  rw [hd] at h2
  simp only at h2
  subst h2
  simp [runJournalCycle, hd]

/-- C6, witness: a cycle that drains handle 3 and then the sentinel
(handle 4 sits behind the sentinel) stops with no sync and no
resolution. -/
theorem journal_sentinel_exits_witness :
    (none ∈ [some 3, none, some 4]) ∧
    runJournalCycle [some 3, none, some 4] = ([], true) :=
  ⟨by decide, journal_sentinel_exits [some 3, none, some 4] (by decide)⟩

/-- C3: in a journal cycle that drains no sentinel, the batch is every
handle available in the queue, in order; if it is empty, the cycle
emits nothing (no `SyncWAL`); if it is non-empty, the cycle emits
exactly one `SyncWAL` followed by (and only then) the resolution of
every handle of the batch. -/
theorem journal_group_commit (items : List (Option Nat)) (h : ¬ none ∈ items) :
    (items.filterMap id = [] → runJournalCycle items = ([], false)) ∧
    (items.filterMap id ≠ [] →
      runJournalCycle items
        = (JEvent.sync :: (items.filterMap id).map JEvent.resolve, false)) := by
  have hd := drainQueue_no_sentinel items h
  constructor
  · intro he
    simp [runJournalCycle, hd, he]
  · intro hne
    simp [runJournalCycle, hd, hne]

/-- C3, witness: a cycle over queue `[h1, h2]` emits one `SyncWAL` and
then resolves both handles; a cycle over the empty queue emits
nothing. -/
theorem journal_group_commit_witness :
    (¬ none ∈ [some 1, some 2]) ∧
    runJournalCycle [some 1, some 2]
      = ([JEvent.sync, JEvent.resolve 1, JEvent.resolve 2], false) ∧
    runJournalCycle ([] : List (Option Nat)) = ([], false) :=
  ⟨by decide,
   (journal_group_commit [some 1, some 2] (by decide)).2 (by decide),
   (journal_group_commit [] (by decide)).1 rfl⟩

/-- C2: evaluation at the failing input. With handle 1 still in the
queue when the worker reaches the sentinel, the drain loop collects
handle 1 into the batch, then reads the sentinel and returns at once:
the run emits no event — handle 1, enqueued before the sentinel, is
never resolved (its promise is destroyed unfulfilled), contradicting
the drain-then-sentinel shutdown the claim states. -/
theorem journal_drops_batch_at_sentinel :
    (drainQueue [some 1, none]).1 = [1] ∧
    runJournalCycle [some 1, none] = ([], true) ∧
    runJournal [[some 1, none]] = [] := by
  decide

/-- C9: with `fsyncWal` false, a successful `put` performs the engine
`Put` and returns an already-resolved success future immediately; it
enqueues no completion handle, and construction starts no journal
thread — `SyncWAL` is only ever issued by the journal worker, which
therefore never runs. -/
theorem put_non_durable (engineOk : Bool) (h : engineOk = true) :
    Storage.put false engineOk = ([SEvent.enginePut], PutResult.resolvedSuccess) ∧
    Storage.construct false = [] ∧
    ¬ SEvent.enqueueHandle ∈ (Storage.put false engineOk).1 ∧
    ¬ SEvent.startJournalThread ∈ Storage.construct false := by
  subst h
  exact ⟨rfl, rfl, by decide, by decide⟩

/-- C9, witness: the non-durable `put` behaviour at a successful engine
write. -/
theorem put_non_durable_witness :
    (true = true) ∧
    (Storage.put false true = ([SEvent.enginePut], PutResult.resolvedSuccess) ∧
     Storage.construct false = [] ∧
     ¬ SEvent.enqueueHandle ∈ (Storage.put false true).1 ∧
     ¬ SEvent.startJournalThread ∈ Storage.construct false) :=
  ⟨rfl, put_non_durable true rfl⟩
